import Mathlib

/-!
Shallow embedding of the jane waveform indexing core
(src/jane/waveforms/tasks.py) and of the fdsnws event query entry point
(src/jane/fdsnws/views/event_1.py).  Timestamps, sampling rates and
calibration factors are modelled as rationals; the relational store is
modelled as an explicit state record (paths, files, segments) with the
cascade rules of the data model; decoding by the codec collaborator is
an input (an optional trace list, none meaning the decode raised).
Components whose source is not part of the repository snapshot (the
pattern matcher, the query parameter parser, the File model fields) are
modelled from the specification and marked as such in their doc
comments.
-/

namespace Jane

/-- Python ASCII uppercasing of one character, as str.upper acts on the
identity codes handled here. -/
def upChar (c : Char) : Char :=
  if 97 ≤ c.toNat ∧ c.toNat ≤ 122 then Char.ofNat (c.toNat - 32) else c

/-- Python str.upper on the (ASCII) seismic identity codes, used by
process_file to normalize network, station, location and channel. -/
def pyUpper (s : String) : String :=
  String.mk (s.data.map upChar)

/-- Metadata of one decoded trace as exposed by the codec collaborator
(trace.stats in the source): identity fields, time interval of first and
last sample, sampling rate, number of samples, calibration, declared
container format and the optional quality code. -/
structure TraceStats where
  network : String
  station : String
  location : String
  channel : String
  starttime : ℚ
  endtime : ℚ
  sampling_rate : ℚ
  npts : Nat
  calib : ℚ
  format : String
  dataquality : Option String
deriving DecidableEq

/-- One decoded trace presented to ingestion: its stats plus whether the
best-effort preview image plot succeeds and the optional result of the
downsampled preview computation (none = createPreview raised). -/
structure TraceInput where
  stats : TraceStats
  plotOk : Bool
  preview : Option (List Int)
deriving DecidableEq

/-- trace.id in the source: the dotted join of the four identity codes,
compared by string equality in the gap scan. -/
def traceIdStr (t : TraceStats) : String :=
  t.network ++ "." ++ t.station ++ "." ++ t.location ++ "." ++ t.channel

/-- Rounding half away from zero on rationals, the behaviour of the float
rounding used in the gap computation of the codec collaborator. -/
def pyRound (q : ℚ) : ℤ :=
  if 0 ≤ q then ⌊q + 1/2⌋ else ⌈q - 1/2⌉

/-- Start of the following trace minus end (last sample time) of the
preceding trace. -/
def rawDelta (p n : TraceStats) : ℚ :=
  n.starttime - p.endtime

/-- The delta of the gap scan: a negative difference (overlap) is clamped
so it is never larger than the coverage of the following trace. -/
def clampedDelta (p n : TraceStats) : ℚ :=
  if rawDelta p n < 0 then
    if -(rawDelta p n) > n.endtime - n.starttime then -(n.endtime - n.starttime)
    else rawDelta p n
  else rawDelta p n

/-- The gap scan compares the sample intervals stats.delta = 1/sampling_rate
of the two traces; for the positive rates of real data this is equality of
the sampling rates, which is how we state it. -/
def sameSamplingInterval (p n : TraceStats) : Prop :=
  p.sampling_rate = n.sampling_rate

/-- Raw missing-sample count of a pair in the gap scan, before the plus
or minus one adjustment: the absolute clamped delta times the sampling
rate of the preceding trace, rounded. -/
def gapNsamples (p n : TraceStats) : ℤ :=
  pyRound |clampedDelta p n * p.sampling_rate|

/-- A pair is dropped from the gap list when both traces have the same
sample interval and the delta rounds to exactly one sample period: the
traces are contiguous within tolerance. -/
def skippedAsContiguous (p n : TraceStats) : Prop :=
  sameSamplingInterval p n ∧ gapNsamples p n = 1

instance (p n : TraceStats) : Decidable (sameSamplingInterval p n) := by
  unfold sameSamplingInterval; infer_instance

instance (p n : TraceStats) : Decidable (skippedAsContiguous p n) := by
  unfold skippedAsContiguous sameSamplingInterval; exact instDecidableAnd

/-- One entry of the gap list: identity of the pair, end time of the
preceding trace, start time of the following trace, the signed clamped
delta (index 6 in the source, the only field process_file reads) and the
adjusted missing-sample count. -/
structure GapEntry where
  network : String
  station : String
  location : String
  channel : String
  stime : ℚ
  etime : ℚ
  delta : ℚ
  nsamples : ℤ
deriving DecidableEq

/-- The gap list entry produced for one adjacent pair of the sorted trace
list, or none when the pair has different identities or is contiguous
within the one-sample tolerance.  Models stream.getGaps() of the codec
collaborator as called by process_file (no min_gap or max_gap, so those
filters are off). -/
def gapEntry (p n : TraceStats) : Option GapEntry :=
  if traceIdStr p ≠ traceIdStr n then none
  else if skippedAsContiguous p n then none
  else some
    { network := p.network, station := p.station, location := p.location,
      channel := p.channel, stime := p.endtime, etime := n.starttime,
      delta := clampedDelta p n,
      nsamples :=
        if clampedDelta p n > 0 then gapNsamples p n - 1 else gapNsamples p n + 1 }

/-- Insert into an ascending list, before the first element the new one
is le to; used to build a stable sort matching the stable sort of the
collaborator. -/
def insertSorted (le : α → α → Bool) (a : α) : List α → List α
  | [] => [a]
  | y :: ys => if le a y then a :: y :: ys else y :: insertSorted le a ys

/-- Stable insertion sort. -/
def insertionSort (le : α → α → Bool) : List α → List α
  | [] => []
  | a :: l => insertSorted le a (insertionSort le l)

/-- The sort key of stream.sort(): lexicographic by network, station,
location, channel, starttime, endtime, sampling_rate, npts. -/
def traceSortLe (a b : TraceStats) : Bool :=
  if a.network ≠ b.network then decide (a.network < b.network)
  else if a.station ≠ b.station then decide (a.station < b.station)
  else if a.location ≠ b.location then decide (a.location < b.location)
  else if a.channel ≠ b.channel then decide (a.channel < b.channel)
  else if a.starttime ≠ b.starttime then decide (a.starttime < b.starttime)
  else if a.endtime ≠ b.endtime then decide (a.endtime < b.endtime)
  else if a.sampling_rate ≠ b.sampling_rate then decide (a.sampling_rate < b.sampling_rate)
  else decide (a.npts ≤ b.npts)

/-- stream.sort() before the gap scan. -/
def sortTraces (l : List TraceStats) : List TraceStats :=
  insertionSort traceSortLe l

/-- Adjacent pairs of a list, in order. -/
def adjPairs : List α → List (α × α)
  | a :: b :: rest => (a, b) :: adjPairs (b :: rest)
  | _ => []

/-- stream.getGaps() as consumed by process_file: sort the traces, scan
adjacent pairs, keep the entries of same-identity non-contiguous pairs. -/
def getGaps (l : List TraceStats) : List GapEntry :=
  (adjPairs (sortTraces l)).filterMap (fun q => gapEntry q.1 q.2)

/-- file_obj.gaps in process_file: entries of the gap list with
nonnegative delta (g[6] >= 0). -/
def gapsCount (l : List TraceStats) : Nat :=
  (getGaps l).countP (fun g => decide (0 ≤ g.delta))

/-- file_obj.overlaps in process_file: entries of the gap list with
negative delta (g[6] < 0). -/
def overlapsCount (l : List TraceStats) : Nat :=
  (getGaps l).countP (fun g => decide (g.delta < 0))

/-- Stored File record.  Modelled from the spec for the fields the
snapshot does not show being assigned (models.py is not under src/): per
section 6 the store persists File with path, name, format, size, mtime,
ctime, gapCount and overlapCount, and the staleness check of section 4.2
compares the persisted stat triple, so creation records the stat triple
of the ingested file.  The id is the database row identity segments
reference. -/
structure FileRec where
  id : Nat
  dirname : String
  name : String
  format : String
  size : ℤ
  mtime : ℤ
  ctime : ℤ
  gaps : Nat
  overlaps : Nat
deriving DecidableEq

/-- Stored ContinuousTrace (Segment) record, as written by the trace loop
of process_file. -/
structure SegmentRec where
  fileId : Nat
  network : String
  station : String
  location : String
  channel : String
  lower : ℚ
  upper : ℚ
  calib : ℚ
  sampling_rate : ℚ
  npts : Nat
  duration : ℚ
  quality : Option String
  preview_image : Option Unit
  preview_trace : Option (List Int)
  pos : Nat
deriving DecidableEq

/-- The relational store visible to this core: Path rows (directory
names), File rows and Segment rows, plus the next fresh row id.
Deleting a File cascades to its Segments; deleting a Path cascades to
its Files. -/
structure IndexState where
  paths : List String
  files : List FileRec
  segments : List SegmentRec
  nextId : Nat
deriving DecidableEq

/-- The stat triple of the file on disk at ingestion time, after the
conversions of the source (size as integer, mtime and ctime via
to_datetime, which we keep abstract as integers compared by equality). -/
structure FileStat where
  size : ℤ
  mtime : ℤ
  ctime : ℤ
deriving DecidableEq

/-- How one process_file call ends: the silent no-op return for an
unchanged file, the decode exception of the codec, the
JaneWaveformTaskException for a decoded-but-empty container, the
UnboundLocalError escaping from del preview_trace, or normal
completion. -/
inductive Outcome
  | unchanged
  | decodeError
  | emptyError
  | unboundLocal
  | success
deriving DecidableEq

/-- models.File.objects.get(path__name=dir, name=name): first stored file
of that directory and name. -/
def findFile (st : IndexState) (dir name : String) : Option FileRec :=
  st.files.find? (fun f => f.dirname == dir && f.name == name)

/-- file.delete(): remove a File row and cascade to its Segments. -/
def deleteFileId (st : IndexState) (i : Nat) : IndexState :=
  { st with files := st.files.filter (fun f => f.id != i),
            segments := st.segments.filter (fun s => s.fileId != i) }

/-- models.Path.objects.get_or_create(name=dir). -/
def addPath (st : IndexState) (dir : String) : IndexState :=
  if st.paths.contains dir then st else { st with paths := st.paths ++ [dir] }

/-- models.File.objects.filter(path=path_obj, name=name).delete(), with
the cascade to segments of the deleted files. -/
def deleteFilesAt (st : IndexState) (dir name : String) : IndexState :=
  { st with
    files := st.files.filter (fun f => !(f.dirname == dir && f.name == name)),
    segments := st.segments.filter (fun s =>
      !((st.files.filter (fun f => f.dirname == dir && f.name == name)).map FileRec.id).contains s.fileId) }

/-- The Segment row written for one trace: identity uppercased, interval
and sample metadata from the decoded stats, the optional quality code
(absent is not an error), the preview image if plotting succeeded and
the preview trace if createPreview succeeded. -/
def buildSegment (fid pos : Nat) (t : TraceInput) : SegmentRec :=
  { fileId := fid,
    network := pyUpper t.stats.network,
    station := pyUpper t.stats.station,
    location := pyUpper t.stats.location,
    channel := pyUpper t.stats.channel,
    lower := t.stats.starttime,
    upper := t.stats.endtime,
    calib := t.stats.calib,
    sampling_rate := t.stats.sampling_rate,
    npts := t.stats.npts,
    duration := t.stats.endtime - t.stats.starttime,
    quality := t.stats.dataquality,
    preview_image := if t.plotOk then some () else none,
    preview_trace := t.preview,
    pos := pos }

/-- models.ContinuousTrace.objects.get_or_create(file=..., timerange=...)
followed by field assignment and save: update the row with the same file
and time range if one exists, else append a new row. -/
def upsertSegment (st : IndexState) (seg : SegmentRec) : IndexState :=
  if st.segments.any (fun s =>
      s.fileId == seg.fileId && s.lower == seg.lower && s.upper == seg.upper) then
    { st with segments := st.segments.map (fun s =>
        if s.fileId == seg.fileId && s.lower == seg.lower && s.upper == seg.upper then seg
        else s) }
  else { st with segments := st.segments ++ [seg] }

/-- The per-trace loop of process_file.  Every iteration stores the
segment (quality and preview fields best effort), then executes
del preview_trace; when createPreview raised in this iteration the name
preview_trace is unbound there, so the del statement raises
UnboundLocalError and the task aborts after the save of the current
row. -/
def processTraces (st : IndexState) (fid pos : Nat) : List TraceInput → Outcome × IndexState
  | [] => (Outcome.success, st)
  | t :: rest =>
      let st1 := upsertSegment st (buildSegment fid pos t)
      match t.preview with
      | some _ => processTraces st1 fid (pos + 1) rest
      | none => (Outcome.unboundLocal, st1)

/-- process_file after the staleness check: create the Path row, decode
(none aborts with the decode exception), reject a decoded-but-empty
stream, then delete any File rows for this path, create the File row
with format from the first trace and the gap and overlap counts, and run
the trace loop. -/
def processFresh (st : IndexState) (dir name : String) (stat : FileStat)
    (decoded : Option (List TraceInput)) : Outcome × IndexState :=
  let st1 := addPath st dir
  match decoded with
  | none => (Outcome.decodeError, st1)
  | some [] => (Outcome.emptyError, st1)
  | some (t :: ts) =>
      let st2 := deleteFilesAt st1 dir name
      let fileObj : FileRec :=
        { id := st2.nextId, dirname := dir, name := name,
          format := t.stats.format,
          size := stat.size, mtime := stat.mtime, ctime := stat.ctime,
          gaps := gapsCount ((t :: ts).map TraceInput.stats),
          overlaps := overlapsCount ((t :: ts).map TraceInput.stats) }
      let st3 := { st2 with files := st2.files ++ [fileObj], nextId := st2.nextId + 1 }
      processTraces st3 fileObj.id 0 (t :: ts)

/-- process_file of src/jane/waveforms/tasks.py.  If a File row exists
for the path and its stored size, mtime and ctime all equal the fresh
stat, the call returns silently; if any differs the stale row is deleted
(cascading to its segments) and ingestion proceeds; decode and the rest
follow in processFresh. -/
def process_file (st : IndexState) (dir name : String) (stat : FileStat)
    (decoded : Option (List TraceInput)) : Outcome × IndexState :=
  match findFile st dir name with
  | some f =>
      if f.size = stat.size ∧ f.mtime = stat.mtime ∧ f.ctime = stat.ctime then
        (Outcome.unchanged, st)
      else processFresh (deleteFileId st f.id) dir name stat decoded
  | none => processFresh st dir name stat decoded

/-- The distinguishable return values of the filemon_event task for the
file branches modelled here. -/
inductive FilemonOutcome
  | fileDeleted
  | fileAlreadyDeleted
  | fileNotMoved
  | movedPathAlreadyDeleted
  | movedOldPathDeleted
  | movedPathUntouched
  | raisedDoesNotExist
deriving DecidableEq

/-- The deleted-file branch of filemon_event: delete the File row if it
exists, otherwise catch ObjectDoesNotExist and return the
already-deleted message without touching the store. -/
def filemonFileDeleted (st : IndexState) (srcDir srcName : String) :
    FilemonOutcome × IndexState :=
  match findFile st srcDir srcName with
  | some f => (FilemonOutcome.fileDeleted, deleteFileId st f.id)
  | none => (FilemonOutcome.fileAlreadyDeleted, st)

/-- The moved-file branch of filemon_event.  Equal source and destination
is a no-op.  Otherwise, inside one transaction the destination Path row
is created and the File row is looked up (a missing row raises and the
transaction rolls the Path creation back, leaving the store unchanged);
the found row gets the destination name and path.  Afterwards the source
Path row, if still present and owning no files, is deleted. -/
def filemonFileMoved (st : IndexState) (srcDir srcName destDir destName : String) :
    FilemonOutcome × IndexState :=
  if srcDir = destDir ∧ srcName = destName then (FilemonOutcome.fileNotMoved, st)
  else
    match findFile st srcDir srcName with
    | none => (FilemonOutcome.raisedDoesNotExist, st)
    | some f =>
        let st1 := addPath st destDir
        let st2 := { st1 with files := st1.files.map (fun (g : FileRec) =>
            if g.id = f.id then { g with dirname := destDir, name := destName } else g) }
        if st2.paths.contains srcDir then
          if (st2.files.filter (fun g => g.dirname == srcDir)).length = 0 then
            (FilemonOutcome.movedOldPathDeleted,
             { st2 with paths := st2.paths.filter (fun p => p != srcDir) })
          else (FilemonOutcome.movedPathUntouched, st2)
        else (FilemonOutcome.movedPathAlreadyDeleted, st2)

/-- models.Path.objects.filter(name__startswith=path).delete() of
index_path: every Path row whose name has the given string as a plain
prefix is deleted, cascading to the File rows of those paths and to
their Segments. -/
def purgePath (st : IndexState) (path : String) : IndexState :=
  { paths := st.paths.filter (fun p => !(path.data.isPrefixOf p.data)),
    files := st.files.filter (fun f => !(path.data.isPrefixOf f.dirname.data)),
    segments := st.segments.filter (fun s =>
      !((st.files.filter (fun f => path.data.isPrefixOf f.dirname.data)).map FileRec.id).contains s.fileId),
    nextId := st.nextId }

/-- The state effect of index_path before the directory walk: with
delete_files set, purge by string prefix first; the walk then schedules
process_file per regular file (asynchronous, outside this state
model). -/
def index_path (st : IndexState) (path : String) (delete_files : Bool) : IndexState :=
  if delete_files then purgePath st path else st

/-- Modelled from the spec (section 4.3): the wildcard pattern language
of the Pattern Matcher, whose source module is not part of the snapshot.
A star matches any sequence of zero or more characters, a question mark
exactly one, every other character itself. -/
def patMatch : List Char → List Char → Bool
  | [], [] => true
  | [], _ :: _ => false
  | p :: ps, s =>
      if p = '*' then
        patMatch ps s ||
          (match s with
           | [] => false
           | _ :: s2 => patMatch (p :: ps) s2)
      else
        match s with
        | [] => false
        | c :: s2 => (p = '?' || p = c) && patMatch ps s2
termination_by a b => (a.length, b.length)

/-- A selector pattern whose first character is the negation marker is an
exclusion pattern. -/
def isExclusion (p : String) : Bool :=
  match p.data with
  | c :: _ => c = '-'
  | [] => false

/-- Modelled from the spec (section 4.3): the per-field decision of the
Pattern Matcher.  An empty inclusion list matches everything, otherwise
some inclusion pattern must match; a field matched by inclusion is
rejected when any exclusion pattern (marker stripped) also matches. -/
def fieldMatches (value : String) (selectors : List String) : Bool :=
  ((selectors.filter (fun p => !isExclusion p)).isEmpty ||
    (selectors.filter (fun p => !isExclusion p)).any (fun p => patMatch p.data value.data)) &&
  !((selectors.filter (fun p => isExclusion p)).any (fun p => patMatch (p.data.drop 1) value.data))

/-- The four per-field selector lists of a query. -/
structure Selectors where
  network : List String
  station : List String
  location : List String
  channel : List String
deriving DecidableEq

/-- All four fields of a stored segment identity must match their
selector lists. -/
def identityMatches (s : SegmentRec) (sel : Selectors) : Bool :=
  fieldMatches s.network sel.network && fieldMatches s.station sel.station &&
  fieldMatches s.location sel.location && fieldMatches s.channel sel.channel

/-- Modelled from the spec (sections 4.1 and 4.5): the segment set a
query resolves, read off the index: stored segments whose identity
passes the Pattern Matcher and whose interval touches the closed query
window. -/
def querySegments (st : IndexState) (wstart wend : ℚ) (sel : Selectors) : List SegmentRec :=
  st.segments.filter (fun s =>
    identityMatches s sel && decide (s.lower ≤ wend ∧ wstart ≤ s.upper))

/-- One inbound value for a typed query parameter: none when the request
does not supply it, some none when it is supplied but its type conversion
fails, some (some v) when it parses to v. -/
def joinOpt : Option (Option α) → Option α
  | none => none
  | some v => v

/-- The raw inbound request of the event service, one slot per entry of
QUERY_PARAMETERS of src/jane/fdsnws/views/event_1.py (timestamps and
coordinates as rationals, nodata as integer, plain strings never fail to
convert). -/
structure RawRequest where
  starttime : Option (Option ℚ)
  endtime : Option (Option ℚ)
  minlatitude : Option (Option ℚ)
  maxlatitude : Option (Option ℚ)
  minlongitude : Option (Option ℚ)
  maxlongitude : Option (Option ℚ)
  mindepth : Option (Option ℚ)
  maxdepth : Option (Option ℚ)
  minmagnitude : Option (Option ℚ)
  maxmagnitude : Option (Option ℚ)
  orderby : Option String
  nodata : Option (Option ℤ)
  format : Option String
deriving DecidableEq

/-- The parameter record handed to the resolver, defaults applied as in
QUERY_PARAMETERS (orderby time, nodata 204, format xml, everything else
default None). -/
structure EventParams where
  starttime : Option ℚ
  endtime : Option ℚ
  minlatitude : Option ℚ
  maxlatitude : Option ℚ
  minlongitude : Option ℚ
  maxlongitude : Option ℚ
  mindepth : Option ℚ
  maxdepth : Option ℚ
  minmagnitude : Option ℚ
  maxmagnitude : Option ℚ
  orderby : String
  nodata : ℤ
  format : String
deriving DecidableEq

/-- Modelled from the spec (sections 6 and 9): parse_query_parameters of
jane/fdsnws/views/utils.py, not part of the snapshot.  A supplied value
whose type conversion fails yields an error string; otherwise every
parameter gets its parsed value or its declared default.  All entries of
QUERY_PARAMETERS here have required False, so absence is never an
error. -/
def parse_query_parameters (r : RawRequest) : Except String EventParams :=
  if r.starttime = some none then Except.error "Error parsing starttime"
  else if r.endtime = some none then Except.error "Error parsing endtime"
  else if r.minlatitude = some none then Except.error "Error parsing minlatitude"
  else if r.maxlatitude = some none then Except.error "Error parsing maxlatitude"
  else if r.minlongitude = some none then Except.error "Error parsing minlongitude"
  else if r.maxlongitude = some none then Except.error "Error parsing maxlongitude"
  else if r.mindepth = some none then Except.error "Error parsing mindepth"
  else if r.maxdepth = some none then Except.error "Error parsing maxdepth"
  else if r.minmagnitude = some none then Except.error "Error parsing minmagnitude"
  else if r.maxmagnitude = some none then Except.error "Error parsing maxmagnitude"
  else if r.nodata = some none then Except.error "Error parsing nodata"
  else Except.ok
    { starttime := joinOpt r.starttime, endtime := joinOpt r.endtime,
      minlatitude := joinOpt r.minlatitude, maxlatitude := joinOpt r.maxlatitude,
      minlongitude := joinOpt r.minlongitude, maxlongitude := joinOpt r.maxlongitude,
      mindepth := joinOpt r.mindepth, maxdepth := joinOpt r.maxdepth,
      minmagnitude := joinOpt r.minmagnitude, maxmagnitude := joinOpt r.maxmagnitude,
      orderby := r.orderby.getD "time",
      nodata := (joinOpt r.nodata).getD 204,
      format := r.format.getD "xml" }

/-- The time-order rejection test of event_1.query, Python truthiness
included: it fires only when both parsed times are present and nonzero
and endtime is not strictly after starttime. -/
def startEndBad (p : EventParams) : Bool :=
  match p.starttime, p.endtime with
  | some s, some e => !(s == 0) && !(e == 0) && decide (e ≤ s)
  | _, _ => false

/-- Result of the query view: a rejection with its message, or the
request reaching query_event with the validated parameters. -/
inductive EventQueryResult
  | rejected (msg : String)
  | resolved (p : EventParams)
deriving DecidableEq

/-- The three in-view rejection tests of event_1.query that run after
parsing, in source order, before query_event is invoked. -/
def eventChecks (p : EventParams) : EventQueryResult :=
  if startEndBad p then EventQueryResult.rejected "Start time must be before end time"
  else if !(p.nodata == 204 || p.nodata == 404) then
    EventQueryResult.rejected "nodata must be 204 or 404."
  else if !(p.format == "xml" || p.format == "text") then
    EventQueryResult.rejected "format must be xml or text."
  else EventQueryResult.resolved p

/-- query of src/jane/fdsnws/views/event_1.py: parse (a returned string
is an error), apply the three in-view checks, then invoke the resolver
query_event. -/
def eventQuery (r : RawRequest) : EventQueryResult :=
  match parse_query_parameters r with
  | Except.error msg => EventQueryResult.rejected msg
  | Except.ok p => eventChecks p

/-- Whether the view handed the request to the resolver. -/
def EventQueryResult.isResolved : EventQueryResult → Bool
  | EventQueryResult.resolved _ => true
  | EventQueryResult.rejected _ => false

/-- The gap of a consecutive pair exactly as the specification words it:
the earlier trace ends strictly before the later one begins, beyond a
tolerance of one sample period. -/
def specGapPair (p n : TraceStats) : Prop :=
  traceIdStr p = traceIdStr n ∧ p.endtime < n.starttime ∧
    1 / p.sampling_rate < n.starttime - p.endtime

/-- The overlap of a consecutive pair as the specification words it: the
later trace begins before the earlier one ends. -/
def specOverlapPair (p n : TraceStats) : Prop :=
  traceIdStr p = traceIdStr n ∧ n.starttime < p.endtime

instance (p n : TraceStats) : Decidable (specGapPair p n) := by
  unfold specGapPair; infer_instance

instance (p n : TraceStats) : Decidable (specOverlapPair p n) := by
  unfold specOverlapPair; infer_instance

/-- Gap count predicted by the literal wording of the claim. -/
def specGapCount (l : List TraceStats) : Nat :=
  (adjPairs (sortTraces l)).countP (fun q => decide (specGapPair q.1 q.2))

/-- Overlap count predicted by the literal wording of the claim. -/
def specOverlapCount (l : List TraceStats) : Nat :=
  (adjPairs (sortTraces l)).countP (fun q => decide (specOverlapPair q.1 q.2))

/-- Amended gap rule: same identity, the pair is not dropped as
contiguous within the one-sample rounding tolerance, and the earlier
trace ends at or before the later one begins (boundary-touching pairs
count as gaps). -/
def amendedGapPair (p n : TraceStats) : Prop :=
  traceIdStr p = traceIdStr n ∧ ¬skippedAsContiguous p n ∧ p.endtime ≤ n.starttime

/-- Amended overlap rule: same identity, not dropped as contiguous, and
the later trace begins strictly before the earlier one ends. -/
def amendedOverlapPair (p n : TraceStats) : Prop :=
  traceIdStr p = traceIdStr n ∧ ¬skippedAsContiguous p n ∧ n.starttime < p.endtime

instance (p n : TraceStats) : Decidable (amendedGapPair p n) := by
  unfold amendedGapPair; infer_instance

instance (p n : TraceStats) : Decidable (amendedOverlapPair p n) := by
  unfold amendedOverlapPair; infer_instance

/-- Gap count under the amended rule. -/
def amendedGapCount (l : List TraceStats) : Nat :=
  (adjPairs (sortTraces l)).countP (fun q => decide (amendedGapPair q.1 q.2))

/-- Overlap count under the amended rule. -/
def amendedOverlapCount (l : List TraceStats) : Nat :=
  (adjPairs (sortTraces l)).countP (fun q => decide (amendedOverlapPair q.1 q.2))

/-- The amended acceptance condition of the event query view: every
supplied parameter parses, endtime is strictly after starttime whenever
both are supplied with nonzero timestamps, a supplied nodata is 204 or
404, a supplied format is xml or text.  Missing starttime or endtime is
accepted. -/
def acceptableEventRequest (r : RawRequest) : Prop :=
  r.starttime ≠ some none ∧ r.endtime ≠ some none ∧
  r.minlatitude ≠ some none ∧ r.maxlatitude ≠ some none ∧
  r.minlongitude ≠ some none ∧ r.maxlongitude ≠ some none ∧
  r.mindepth ≠ some none ∧ r.maxdepth ≠ some none ∧
  r.minmagnitude ≠ some none ∧ r.maxmagnitude ≠ some none ∧
  r.nodata ≠ some none ∧
  (∀ s e : ℚ, r.starttime = some (some s) → r.endtime = some (some e) →
     s ≠ 0 → e ≠ 0 → s < e) ∧
  (∀ n : ℤ, r.nodata = some (some n) → n = 204 ∨ n = 404) ∧
  (∀ fm : String, r.format = some fm → fm = "xml" ∨ fm = "text")

/-- A fully empty inbound event request. -/
def emptyRawRequest : RawRequest :=
  { starttime := none, endtime := none, minlatitude := none, maxlatitude := none,
    minlongitude := none, maxlongitude := none, mindepth := none, maxdepth := none,
    minmagnitude := none, maxmagnitude := none, orderby := none, nodata := none,
    format := none }

/-- The parameter record the empty request resolves to: all defaults. -/
def defaultEventParams : EventParams :=
  { starttime := none, endtime := none, minlatitude := none, maxlatitude := none,
    minlongitude := none, maxlongitude := none, mindepth := none, maxdepth := none,
    minmagnitude := none, maxmagnitude := none, orderby := "time", nodata := 204,
    format := "xml" }

/-- Fixture: a two-sample trace of one second at one hertz. -/
def trBase : TraceStats :=
  { network := "BW", station := "RJOB", location := "", channel := "Z",
    starttime := 0, endtime := 1, sampling_rate := 1, npts := 2, calib := 1,
    format := "MSEED", dataquality := none }

/-- Fixture: same identity, beginning exactly at the end time of trBase. -/
def trTouch : TraceStats :=
  { trBase with starttime := 1, endtime := 2 }

/-- Fixture: same identity, beginning two seconds after the end of
trBase (a genuine gap). -/
def trAfterGap : TraceStats :=
  { trBase with starttime := 3, endtime := 4 }

/-- Fixture: a decoded trace whose preview computations both succeed. -/
def trInOk : TraceInput :=
  { stats := trBase, plotOk := true, preview := some [0, 1] }

/-- Fixture: a decoded trace for which createPreview raises. -/
def trInNoPreview : TraceInput :=
  { stats := trBase, plotOk := true, preview := none }

/-- Fixture: a second healthy decoded trace after the gap. -/
def trInOk2 : TraceInput :=
  { stats := trAfterGap, plotOk := true, preview := some [2] }

/-- Fixture: a decoded trace whose preview image plot fails but whose
preview trace succeeds. -/
def trInNoPlot : TraceInput :=
  { stats := trBase, plotOk := false, preview := some [0] }

/-- Fixture: an indexed file record under directory /d. -/
def fileA : FileRec :=
  { id := 0, dirname := "/d", name := "f", format := "MSEED",
    size := 1, mtime := 10, ctime := 20, gaps := 0, overlaps := 0 }

/-- Fixture: the segment row of fileA. -/
def segA : SegmentRec := buildSegment 0 0 trInOk

/-- Fixture: a store holding exactly fileA and its segment. -/
def stA : IndexState :=
  { paths := ["/d"], files := [fileA], segments := [segA], nextId := 1 }

/-- Fixture: the empty store. -/
def emptyIndex : IndexState :=
  { paths := [], files := [], segments := [], nextId := 0 }

/-- Fixture: fileA relocated to directory /a, for the move scenario. -/
def fileB : FileRec :=
  { fileA with dirname := "/a" }

/-- Fixture: a store holding fileB under path /a. -/
def stB : IndexState :=
  { paths := ["/a"], files := [fileB], segments := [segA], nextId := 1 }

/-- Fixture: a store with three sibling paths for the purge scenario. -/
def stD : IndexState :=
  { paths := ["/data/foo", "/data/foobar", "/data/bar"], files := [], segments := [],
    nextId := 0 }

theorem addPath_files (st : IndexState) (dir : String) : (addPath st dir).files = st.files := by
  unfold addPath; split <;> rfl

theorem addPath_segments (st : IndexState) (dir : String) :
    (addPath st dir).segments = st.segments := by
  unfold addPath; split <;> rfl

theorem addPath_nextId (st : IndexState) (dir : String) :
    (addPath st dir).nextId = st.nextId := by
  unfold addPath; split <;> rfl

theorem mem_addPath_paths (st : IndexState) (dir x : String) :
    x ∈ (addPath st dir).paths ↔ x ∈ st.paths ∨ x = dir := by
  unfold addPath; split
  · rename_i h
    constructor
    · exact fun hx => Or.inl hx
    · rintro (hx | rfl)
      · exact hx
      · exact List.elem_iff.mp h
  · simp

theorem deleteFilesAt_files_sublist (st : IndexState) (dir name : String) :
    (deleteFilesAt st dir name).files.Sublist st.files :=
  List.filter_sublist _

theorem deleteFilesAt_segments_sublist (st : IndexState) (dir name : String) :
    (deleteFilesAt st dir name).segments.Sublist st.segments :=
  List.filter_sublist _

theorem deleteFilesAt_nextId (st : IndexState) (dir name : String) :
    (deleteFilesAt st dir name).nextId = st.nextId := rfl

theorem upsertSegment_files (st : IndexState) (seg : SegmentRec) :
    (upsertSegment st seg).files = st.files := by
  unfold upsertSegment; split <;> rfl

theorem upsertSegment_pred (P : SegmentRec → Prop) (st : IndexState) (seg : SegmentRec)
    (hst : ∀ s ∈ st.segments, P s) (hseg : P seg) :
    ∀ s ∈ (upsertSegment st seg).segments, P s := by
  unfold upsertSegment; split
  · intro s hs
    rcases List.mem_map.mp hs with ⟨a, ha, hEq⟩
    by_cases hc : (a.fileId == seg.fileId && a.lower == seg.lower && a.upper == seg.upper) = true
    · rw [if_pos hc] at hEq; exact hEq ▸ hseg
    · rw [if_neg hc] at hEq; exact hEq ▸ hst a ha
  · intro s hs
    rcases List.mem_append.mp hs with h | h
    · exact hst s h
    · rcases List.mem_singleton.mp h with rfl; exact hseg

theorem processTraces_files : ∀ (l : List TraceInput) (st : IndexState) (fid pos : Nat),
    (processTraces st fid pos l).2.files = st.files := by
  intro l
  induction l with
  | nil => intro st fid pos; rfl
  | cons t rest ih =>
      intro st fid pos
      unfold processTraces
      cases hp : t.preview with
      | some v => simpa using (ih _ fid (pos + 1)).trans (upsertSegment_files _ _)
      | none => simpa using upsertSegment_files _ _

theorem processTraces_fst : ∀ (l : List TraceInput) (st : IndexState) (fid pos : Nat),
    (processTraces st fid pos l).1 = Outcome.success ∨
    (processTraces st fid pos l).1 = Outcome.unboundLocal := by
  intro l
  induction l with
  | nil => intro st fid pos; exact Or.inl rfl
  | cons t rest ih =>
      intro st fid pos
      unfold processTraces
      cases hp : t.preview with
      | some v => simpa using ih _ fid (pos + 1)
      | none => simp

theorem processTraces_seg_pred (P : SegmentRec → Prop) :
    ∀ (l : List TraceInput) (st : IndexState) (fid pos : Nat),
    (∀ s ∈ st.segments, P s) → (∀ (q : Nat) (t : TraceInput), P (buildSegment fid q t)) →
    ∀ s ∈ (processTraces st fid pos l).2.segments, P s := by
  intro l
  induction l with
  | nil => intro st fid pos h hb s hs; exact h s hs
  | cons t rest ih =>
      intro st fid pos h hb
      unfold processTraces
      cases hp : t.preview with
      | some v =>
          simpa using ih _ fid (pos + 1) (upsertSegment_pred P _ _ h (hb pos t)) hb
      | none =>
          simpa using upsertSegment_pred P _ _ h (hb pos t)

theorem processFresh_none (st : IndexState) (dir name : String) (stat : FileStat) :
    processFresh st dir name stat none = (Outcome.decodeError, addPath st dir) := rfl

theorem processFresh_nil (st : IndexState) (dir name : String) (stat : FileStat) :
    processFresh st dir name stat (some []) = (Outcome.emptyError, addPath st dir) := rfl

theorem patMatch_star (s : List Char) : patMatch ['*'] s = true := by
  induction s with
  | nil => simp [patMatch]
  | cons c s ih => simp [patMatch, ih]

theorem fieldMatches_star (v : String) : fieldMatches v ["*"] = true := by
  simp [fieldMatches, isExclusion, patMatch_star]

theorem fieldMatches_nil (v : String) : fieldMatches v [] = true := by
  simp [fieldMatches]

theorem process_file_eq_found (st : IndexState) (dir name : String) (stat : FileStat)
    (decoded : Option (List TraceInput)) (f : FileRec)
    (hf : findFile st dir name = some f) :
    process_file st dir name stat decoded =
      if f.size = stat.size ∧ f.mtime = stat.mtime ∧ f.ctime = stat.ctime then
        (Outcome.unchanged, st)
      else processFresh (deleteFileId st f.id) dir name stat decoded := by
  unfold process_file; rw [hf]

theorem process_file_eq_missing (st : IndexState) (dir name : String) (stat : FileStat)
    (decoded : Option (List TraceInput))
    (hf : findFile st dir name = none) :
    process_file st dir name stat decoded = processFresh st dir name stat decoded := by
  unfold process_file; rw [hf]

theorem processTraces_ne_unchanged (l : List TraceInput) (st : IndexState) (fid pos : Nat) :
    (processTraces st fid pos l).1 ≠ Outcome.unchanged := by
  rcases processTraces_fst l st fid pos with h | h <;> rw [h] <;> decide

theorem processFresh_fst_ne (st : IndexState) (dir name : String) (stat : FileStat)
    (decoded : Option (List TraceInput)) :
    (processFresh st dir name stat decoded).1 ≠ Outcome.unchanged := by
  cases decoded with
  | none => rw [processFresh_none]; simp
  | some l =>
      cases l with
      | nil => rw [processFresh_nil]; simp
      | cons t ts =>
          unfold processFresh
          simp only []
          exact processTraces_ne_unchanged _ _ _ _

theorem processFresh_files_pred (st : IndexState) (dir name : String) (stat : FileStat)
    (decoded : Option (List TraceInput)) (P : FileRec → Prop)
    (hold : ∀ g ∈ st.files, P g)
    (hnew : ∀ fr : FileRec, fr.id = st.nextId → P fr) :
    ∀ g ∈ (processFresh st dir name stat decoded).2.files, P g := by
  cases decoded with
  | none => rw [processFresh_none]; rw [addPath_files]; exact hold
  | some l =>
      cases l with
      | nil => rw [processFresh_nil]; rw [addPath_files]; exact hold
      | cons t ts =>
          unfold processFresh
          simp only []
          rw [processTraces_files]
          intro g hg
          simp only [List.mem_append] at hg
          rcases hg with hg | hg
          · have hsub : (deleteFilesAt (addPath st dir) dir name).files.Sublist st.files := by
              rw [show (deleteFilesAt (addPath st dir) dir name).files =
                  (addPath st dir).files.filter _ from rfl, addPath_files]
              exact List.filter_sublist _
            exact hold g (hsub.subset hg)
          · rcases List.mem_singleton.mp hg with rfl
            refine hnew _ ?_
            simp [deleteFilesAt_nextId, addPath_nextId]

theorem processFresh_segments_pred (st : IndexState) (dir name : String) (stat : FileStat)
    (decoded : Option (List TraceInput)) (P : SegmentRec → Prop)
    (hold : ∀ s ∈ st.segments, P s)
    (hnew : ∀ (fid : Nat), fid = st.nextId → ∀ (q : Nat) (t : TraceInput), P (buildSegment fid q t)) :
    ∀ s ∈ (processFresh st dir name stat decoded).2.segments, P s := by
  cases decoded with
  | none => rw [processFresh_none]; rw [addPath_segments]; exact hold
  | some l =>
      cases l with
      | nil => rw [processFresh_nil]; rw [addPath_segments]; exact hold
      | cons t ts =>
          unfold processFresh
          simp only []
          refine processTraces_seg_pred P _ _ _ _ ?_ ?_
          · intro s hs
            have hsub : (deleteFilesAt (addPath st dir) dir name).segments.Sublist st.segments := by
              rw [show (deleteFilesAt (addPath st dir) dir name).segments =
                  (addPath st dir).segments.filter _ from rfl, addPath_segments]
              exact List.filter_sublist _
            exact hold s (hsub.subset hs)
          · intro q t2
            refine hnew _ ?_ q t2
            simp [deleteFilesAt_nextId, addPath_nextId]

/-- C1 as corrected: a decode failure or a decoded-but-empty stream never
commits a new File row or any Segment (the surviving rows are a sublist
of the prior ones); for a path that was not previously indexed the File
and Segment state is exactly unchanged; and when the path was previously
indexed with a differing stat triple, the stale File row and its
Segments were already deleted before decoding and stay deleted after the
failure: no File row with the stale id and no Segment owned by it
survives the call. -/
theorem C1_failed_ingestion_state (st : IndexState) (dir name : String) (stat : FileStat)
    (decoded : Option (List TraceInput))
    (hfail : decoded = none ∨ decoded = some []) :
    ((process_file st dir name stat decoded).1 ≠ Outcome.success) ∧
    ((process_file st dir name stat decoded).2.files.Sublist st.files) ∧
    ((process_file st dir name stat decoded).2.segments.Sublist st.segments) ∧
    (findFile st dir name = none →
      (process_file st dir name stat decoded).2.files = st.files ∧
      (process_file st dir name stat decoded).2.segments = st.segments) ∧
    (∀ f : FileRec, findFile st dir name = some f →
      ¬(f.size = stat.size ∧ f.mtime = stat.mtime ∧ f.ctime = stat.ctime) →
      (∀ g ∈ (process_file st dir name stat decoded).2.files, g.id ≠ f.id) ∧
      (∀ s ∈ (process_file st dir name stat decoded).2.segments, s.fileId ≠ f.id)) := by
  have hPF : ∀ st1 : IndexState, (processFresh st1 dir name stat decoded).1 ≠ Outcome.success ∧
      (processFresh st1 dir name stat decoded).2.files = st1.files ∧
      (processFresh st1 dir name stat decoded).2.segments = st1.segments := by
    intro st1
    rcases hfail with h | h <;> subst h
    · rw [processFresh_none]; exact ⟨by simp, addPath_files _ _, addPath_segments _ _⟩
    · rw [processFresh_nil]; exact ⟨by simp, addPath_files _ _, addPath_segments _ _⟩
  cases hff : findFile st dir name with
  | none =>
      rcases hPF st with ⟨h1, h2, h3⟩
      rw [process_file_eq_missing st dir name stat decoded hff]
      exact ⟨h1, h2 ▸ List.Sublist.refl _, h3 ▸ List.Sublist.refl _, fun _ => ⟨h2, h3⟩,
        fun f2 hf2 => Option.noConfusion hf2⟩
  | some f =>
      by_cases hst : f.size = stat.size ∧ f.mtime = stat.mtime ∧ f.ctime = stat.ctime
      · rw [process_file_eq_found st dir name stat decoded f hff, if_pos hst]
        refine ⟨by simp, List.Sublist.refl _, List.Sublist.refl _,
          fun hn => Option.noConfusion hn, ?_⟩
        intro f2 hf2 hne
        exact absurd ((Option.some.inj hf2) ▸ hst) hne
      · rw [process_file_eq_found st dir name stat decoded f hff, if_neg hst]
        rcases hPF (deleteFileId st f.id) with ⟨h1, h2, h3⟩
        refine ⟨h1, ?_, ?_, fun hn => Option.noConfusion hn, ?_⟩
        · rw [h2]; exact List.filter_sublist _
        · rw [h3]; exact List.filter_sublist _
        · intro f2 hf2 hne
          have he : f = f2 := Option.some.inj hf2
          subst he
          constructor
          · intro g hg
            rw [h2] at hg
            have hg2 : g ∈ st.files.filter (fun x => x.id != f.id) := hg
            simpa using (List.mem_filter.mp hg2).2
          · intro s hs
            rw [h3] at hs
            have hs2 : s ∈ st.segments.filter (fun x => x.fileId != f.id) := hs
            simpa using (List.mem_filter.mp hs2).2

theorem C1_failed_ingestion_state_witness :
    (process_file emptyIndex "/d" "f" { size := 1, mtime := 10, ctime := 20 } none).2.files =
      emptyIndex.files ∧
    (process_file emptyIndex "/d" "f" { size := 1, mtime := 10, ctime := 20 } none).1 ≠
      Outcome.success ∧
    (∀ g ∈ (process_file stA "/d" "f" { size := 2, mtime := 10, ctime := 20 } none).2.files,
      g.id ≠ fileA.id) := by
  have h := C1_failed_ingestion_state emptyIndex "/d" "f"
    { size := 1, mtime := 10, ctime := 20 } none (Or.inl rfl)
  have hA := C1_failed_ingestion_state stA "/d" "f"
    { size := 2, mtime := 10, ctime := 20 } none (Or.inl rfl)
  refine ⟨(h.2.2.2.1 rfl).1, h.1, ?_⟩
  exact (hA.2.2.2.2 fileA (by simp [findFile, stA, fileA]) (by simp [fileA])).1

/-- C1 counterexample: for an indexed file whose size changed, a decode
failure does not leave the index state for the path as it was: the
previously stored File row (and with it its Segment set) is deleted. -/
theorem C1_counterexample :
    (process_file stA "/d" "f" { size := 2, mtime := 10, ctime := 20 } none).1 =
      Outcome.decodeError ∧
    (process_file stA "/d" "f" { size := 2, mtime := 10, ctime := 20 } none).2.files = [] ∧
    (process_file stA "/d" "f" { size := 2, mtime := 10, ctime := 20 } none).2.segments = [] ∧
    stA.files = [fileA] ∧ stA.segments = [segA] := by
  refine ⟨?_, ?_, ?_, rfl, rfl⟩ <;>
    simp [process_file, findFile, stA, fileA, processFresh, addPath, deleteFileId, segA,
      buildSegment, trInOk]

/-- C2: re-ingesting an indexed file whose stored size, mtime and ctime
all equal the fresh stat is a no-op returning the unchanged outcome with
the store exactly as it was (File row, Segment count and contents
identical); if any of the three differs, a full re-index is performed
instead: the outcome is not the no-op one and neither the stale File row
nor any of its Segments survives. -/
theorem C2_staleness (st : IndexState) (dir name : String) (stat : FileStat)
    (decoded : Option (List TraceInput)) (f : FileRec)
    (hf : findFile st dir name = some f)
    (hwf : ∀ g ∈ st.files, g.id < st.nextId) :
    ((f.size = stat.size ∧ f.mtime = stat.mtime ∧ f.ctime = stat.ctime) →
       process_file st dir name stat decoded = (Outcome.unchanged, st)) ∧
    (¬(f.size = stat.size ∧ f.mtime = stat.mtime ∧ f.ctime = stat.ctime) →
       (process_file st dir name stat decoded).1 ≠ Outcome.unchanged ∧
       (∀ g ∈ (process_file st dir name stat decoded).2.files, g.id ≠ f.id) ∧
       (∀ s ∈ (process_file st dir name stat decoded).2.segments, s.fileId ≠ f.id)) := by
  have hmem : f ∈ st.files := List.mem_of_find?_eq_some hf
  have hflt : f.id < st.nextId := hwf f hmem
  constructor
  · intro hstat
    rw [process_file_eq_found st dir name stat decoded f hf, if_pos hstat]
  · intro hstat
    rw [process_file_eq_found st dir name stat decoded f hf, if_neg hstat]
    refine ⟨processFresh_fst_ne _ _ _ _ _, ?_, ?_⟩
    · refine processFresh_files_pred _ _ _ _ _ _ ?_ ?_
      · intro g hg
        have := List.mem_filter.mp hg
        simpa using this.2
      · intro fr hfr
        rw [show (deleteFileId st f.id).nextId = st.nextId from rfl] at hfr
        omega
    · refine processFresh_segments_pred _ _ _ _ _ _ ?_ ?_
      · intro s hs
        have := List.mem_filter.mp hs
        simpa using this.2
      · intro fid hfid q t
        rw [show (deleteFileId st f.id).nextId = st.nextId from rfl] at hfid
        show (buildSegment fid q t).fileId ≠ f.id
        rw [show (buildSegment fid q t).fileId = fid from rfl]
        omega

theorem C2_staleness_witness :
    process_file stA "/d" "f" { size := 1, mtime := 10, ctime := 20 } none =
      (Outcome.unchanged, stA) := by
  refine (C2_staleness stA "/d" "f" { size := 1, mtime := 10, ctime := 20 } none fileA ?_ ?_).1 ?_
  · simp [findFile, stA, fileA]
  · intro g hg
    simp only [stA, List.mem_singleton] at hg
    subst hg
    simp [fileA, stA]
  · exact ⟨rfl, rfl, rfl⟩

/-- C5: a stream that decodes to zero traces makes process_file raise the
distinct empty-container exception, distinguishable from the decode
failure and from success, and commits no new File row or Segment: the
surviving rows are a sublist of the prior ones.  The hypothesis restricts
to calls that actually reach decoding, i.e. the path is not indexed with
an unchanged stat triple. -/
theorem C5_empty_container (st : IndexState) (dir name : String) (stat : FileStat)
    (h : ∀ f, findFile st dir name = some f →
         ¬(f.size = stat.size ∧ f.mtime = stat.mtime ∧ f.ctime = stat.ctime)) :
    (process_file st dir name stat (some [])).1 = Outcome.emptyError ∧
    (process_file st dir name stat none).1 = Outcome.decodeError ∧
    Outcome.emptyError ≠ Outcome.decodeError ∧
    Outcome.emptyError ≠ Outcome.success ∧
    (process_file st dir name stat (some [])).2.files.Sublist st.files ∧
    (process_file st dir name stat (some [])).2.segments.Sublist st.segments := by
  cases hff : findFile st dir name with
  | none =>
      rw [process_file_eq_missing st dir name stat (some []) hff,
        process_file_eq_missing st dir name stat none hff, processFresh_nil, processFresh_none]
      exact ⟨rfl, rfl, by decide, by decide,
        (addPath_files st dir) ▸ List.Sublist.refl _,
        (addPath_segments st dir) ▸ List.Sublist.refl _⟩
  | some f =>
      have hst := h f hff
      rw [process_file_eq_found st dir name stat (some []) f hff,
        process_file_eq_found st dir name stat none f hff, if_neg hst, if_neg hst,
        processFresh_nil, processFresh_none]
      refine ⟨rfl, rfl, by decide, by decide, ?_, ?_⟩
      · rw [addPath_files]; exact List.filter_sublist _
      · rw [addPath_segments]; exact List.filter_sublist _

theorem C5_empty_container_witness :
    (process_file emptyIndex "/d" "f" { size := 1, mtime := 2, ctime := 3 } (some [])).1 =
      Outcome.emptyError :=
  (C5_empty_container emptyIndex "/d" "f" { size := 1, mtime := 2, ctime := 3 }
    (fun f hf => by simp [findFile, emptyIndex] at hf)).1

theorem mem_insertSorted (le : α → α → Bool) (a x : α) :
    ∀ l : List α, x ∈ insertSorted le a l ↔ x = a ∨ x ∈ l := by
  intro l
  induction l with
  | nil => simp [insertSorted]
  | cons y ys ih =>
      simp only [insertSorted]
      split
      · simp
      · simp only [List.mem_cons, ih]
        tauto

theorem mem_insertionSort (le : α → α → Bool) (x : α) :
    ∀ l : List α, x ∈ insertionSort le l ↔ x ∈ l := by
  intro l
  induction l with
  | nil => simp [insertionSort]
  | cons a t ih => simp [insertionSort, mem_insertSorted, ih]

theorem adjPairs_mem : ∀ (l : List α) (q : α × α), q ∈ adjPairs l → q.1 ∈ l ∧ q.2 ∈ l := by
  intro l
  induction l with
  | nil => intro q hq; simp [adjPairs] at hq
  | cons a t ih =>
      intro q hq
      cases t with
      | nil => simp [adjPairs] at hq
      | cons b m =>
          simp only [adjPairs, List.mem_cons] at hq
          rcases hq with rfl | hq
          · exact ⟨List.mem_cons_self _ _, List.mem_cons_of_mem _ (List.mem_cons_self _ _)⟩
          · rcases ih q hq with ⟨h1, h2⟩
            exact ⟨List.mem_cons_of_mem _ h1, List.mem_cons_of_mem _ h2⟩

theorem countP_filterMap_eq (f : α → Option β) (pb : β → Bool) (pa : α → Bool) :
    ∀ l : List α, (∀ a ∈ l, ((f a).map pb).getD false = pa a) →
      (l.filterMap f).countP pb = l.countP pa := by
  intro l
  induction l with
  | nil => intro _; rfl
  | cons a t ih =>
      intro h
      have ha := h a (List.mem_cons_self a t)
      have ht := fun x hx => h x (List.mem_cons_of_mem a hx)
      cases hfa : f a with
      | none =>
          rw [hfa] at ha
          simp only [Option.map_none', Option.getD_none] at ha
          rw [List.filterMap_cons_none hfa, List.countP_cons, ← ha]
          simpa using ih ht
      | some b =>
          rw [hfa] at ha
          simp only [Option.map_some', Option.getD_some] at ha
          simp only [List.filterMap_cons, hfa, List.countP_cons, ih ht, ha]

theorem clampedDelta_nonneg_iff (p n : TraceStats) (hn : n.starttime < n.endtime) :
    0 ≤ clampedDelta p n ↔ p.endtime ≤ n.starttime := by
  unfold clampedDelta rawDelta
  split_ifs with h1 h2
  · constructor <;> intro h <;> linarith
  · constructor <;> intro h <;> linarith
  · constructor <;> intro h <;> linarith

theorem clampedDelta_neg_iff (p n : TraceStats) (hn : n.starttime < n.endtime) :
    clampedDelta p n < 0 ↔ n.starttime < p.endtime := by
  unfold clampedDelta rawDelta
  split_ifs with h1 h2
  · constructor <;> intro h <;> linarith
  · constructor <;> intro h <;> linarith
  · constructor <;> intro h <;> linarith

theorem gapEntry_gap_pointwise (p n : TraceStats) (hn : n.starttime < n.endtime) :
    ((gapEntry p n).map (fun g => decide (0 ≤ g.delta))).getD false =
      decide (amendedGapPair p n) := by
  unfold gapEntry
  by_cases hid : traceIdStr p ≠ traceIdStr n
  · have hno : ¬ amendedGapPair p n := fun h => hid h.1
    simp [if_pos hid, hno]
  · have hid2 : traceIdStr p = traceIdStr n := not_not.mp hid
    rw [if_neg hid]
    by_cases hskip : skippedAsContiguous p n
    · have hno : ¬ amendedGapPair p n := fun h => h.2.1 hskip
      simp [if_pos hskip, hno]
    · rw [if_neg hskip]
      simp only [Option.map_some', Option.getD_some]
      refine decide_eq_decide.mpr ?_
      rw [clampedDelta_nonneg_iff p n hn]
      unfold amendedGapPair
      tauto

theorem gapEntry_overlap_pointwise (p n : TraceStats) (hn : n.starttime < n.endtime) :
    ((gapEntry p n).map (fun g => decide (g.delta < 0))).getD false =
      decide (amendedOverlapPair p n) := by
  unfold gapEntry
  by_cases hid : traceIdStr p ≠ traceIdStr n
  · have hno : ¬ amendedOverlapPair p n := fun h => hid h.1
    simp [if_pos hid, hno]
  · have hid2 : traceIdStr p = traceIdStr n := not_not.mp hid
    rw [if_neg hid]
    by_cases hskip : skippedAsContiguous p n
    · have hno : ¬ amendedOverlapPair p n := fun h => h.2.1 hskip
      simp [if_pos hskip, hno]
    · rw [if_neg hskip]
      simp only [Option.map_some', Option.getD_some]
      refine decide_eq_decide.mpr ?_
      rw [clampedDelta_neg_iff p n hn]
      unfold amendedOverlapPair
      tauto

/-- C4 counterexample: a stream of two same-identity traces where the
second begins exactly at the end time of the first is recorded by the
code as one gap (delta zero is classified by g[6] >= 0), while by the
wording of the claim the earlier trace does not end strictly before the
later one begins, so the claimed gap count is zero; neither side counts
an overlap. -/
theorem C4_counterexample :
    gapsCount [trBase, trTouch] = 1 ∧ specGapCount [trBase, trTouch] = 0 ∧
    overlapsCount [trBase, trTouch] = 0 ∧ specOverlapCount [trBase, trTouch] = 0 := by
  refine ⟨?_, ?_, ?_, ?_⟩ <;>
    norm_num [gapsCount, overlapsCount, specGapCount, specOverlapCount, getGaps, sortTraces,
      insertionSort, insertSorted, traceSortLe, adjPairs, gapEntry, skippedAsContiguous,
      sameSamplingInterval, gapNsamples, pyRound, clampedDelta, rawDelta, traceIdStr,
      specGapPair, specOverlapPair, trBase, trTouch, List.filterMap_cons, List.filterMap_nil,
      List.countP_cons, List.countP_nil]

/-- C4 as corrected, for files whose traces all span at least two samples:
the stored gapCount equals the number of consecutive same-identity trace
pairs (in sorted order) in which the earlier trace ends at or before the
later one begins — so a pair touching exactly at the boundary counts as
a gap, not an overlap — excluding same-rate pairs whose separation
rounds to exactly one sample period; the stored overlapCount equals the
number of such non-contiguous pairs in which the later trace begins
strictly before the earlier one ends.  Only these two aggregate counts
are stored on the File record. -/
theorem C4_gap_overlap_counts (l : List TraceStats)
    (h : ∀ t ∈ l, t.starttime < t.endtime) :
    gapsCount l = amendedGapCount l ∧ overlapsCount l = amendedOverlapCount l := by
  have hs : ∀ t ∈ sortTraces l, t.starttime < t.endtime := fun t ht =>
    h t ((mem_insertionSort traceSortLe t l).mp ht)
  constructor
  · unfold gapsCount getGaps amendedGapCount
    refine countP_filterMap_eq _ _ _ _ ?_
    intro q hq
    exact gapEntry_gap_pointwise q.1 q.2 (hs q.2 (adjPairs_mem (sortTraces l) q hq).2)
  · unfold overlapsCount getGaps amendedOverlapCount
    refine countP_filterMap_eq _ _ _ _ ?_
    intro q hq
    exact gapEntry_overlap_pointwise q.1 q.2 (hs q.2 (adjPairs_mem (sortTraces l) q hq).2)

theorem C4_gap_overlap_counts_witness :
    gapsCount [trBase, trAfterGap] = amendedGapCount [trBase, trAfterGap] := by
  refine (C4_gap_overlap_counts [trBase, trAfterGap] ?_).1
  intro t ht
  rcases List.mem_cons.mp ht with rfl | ht
  · norm_num [trBase]
  · rcases List.mem_singleton.mp ht with rfl
    norm_num [trAfterGap, trBase]

/-- C7 evaluated at the failing input: for a two-trace stream whose first
trace has no obtainable preview trace (createPreview raises), the task
saves the first segment with the preview field absent and then aborts
with the UnboundLocalError escaping from del preview_trace, so the
second trace is never indexed — contradicting the claim that preview
failures never fail the ingestion.  A failing preview image plot or an
absent quality flag alone, by contrast, are tolerated: the one-trace run
with plotOk false and no quality code completes with the fields stored
absent. -/
theorem C7_preview_failure_aborts :
    (process_file emptyIndex "/d" "f" { size := 1, mtime := 2, ctime := 3 }
        (some [trInNoPreview, trInOk2])).1 = Outcome.unboundLocal ∧
    (process_file emptyIndex "/d" "f" { size := 1, mtime := 2, ctime := 3 }
        (some [trInNoPreview, trInOk2])).2.segments = [buildSegment 0 0 trInNoPreview] ∧
    (buildSegment 0 0 trInNoPreview).preview_trace = none ∧
    (process_file emptyIndex "/d" "f" { size := 1, mtime := 2, ctime := 3 }
        (some [trInNoPlot])).1 = Outcome.success ∧
    (buildSegment 0 0 trInNoPlot).preview_image = none ∧
    (buildSegment 0 0 trInNoPlot).quality = none := by
  refine ⟨?_, ?_, rfl, ?_, rfl, rfl⟩ <;>
    simp [process_file, findFile, emptyIndex, processFresh, deleteFilesAt, addPath,
      processTraces, upsertSegment, buildSegment, trInNoPreview, trInOk2, trInNoPlot,
      trBase, trAfterGap]

/-- C8: handling a moved-file event whose source differs from the
destination and whose source file is indexed updates only the File row
pointed at: its directory and name become the destination ones, every
other field and every other row is untouched, the Segment rows are
unchanged (no re-decode), and the source directory entry is pruned
exactly when it no longer owns any files. -/
theorem C8_moved_updates_path_only (st : IndexState) (srcDir srcName destDir destName : String)
    (f : FileRec)
    (hne : ¬(srcDir = destDir ∧ srcName = destName))
    (hf : findFile st srcDir srcName = some f) :
    ((filemonFileMoved st srcDir srcName destDir destName).2.segments = st.segments) ∧
    ((filemonFileMoved st srcDir srcName destDir destName).2.files =
       st.files.map (fun (g : FileRec) =>
         if g.id = f.id then { g with dirname := destDir, name := destName } else g)) ∧
    (((filemonFileMoved st srcDir srcName destDir destName).2.files.any
        (fun g => g.dirname == srcDir)) = false →
      srcDir ∉ (filemonFileMoved st srcDir srcName destDir destName).2.paths) ∧
    (((filemonFileMoved st srcDir srcName destDir destName).2.files.any
        (fun g => g.dirname == srcDir)) = true →
      (srcDir ∈ (filemonFileMoved st srcDir srcName destDir destName).2.paths ↔
        srcDir ∈ st.paths ∨ srcDir = destDir)) := by
  have hbody : filemonFileMoved st srcDir srcName destDir destName =
      (let st1 := addPath st destDir
       let st2 : IndexState := { st1 with files := st1.files.map (fun (g : FileRec) =>
           if g.id = f.id then { g with dirname := destDir, name := destName } else g) }
       if st2.paths.contains srcDir then
         if (st2.files.filter (fun g => g.dirname == srcDir)).length = 0 then
           (FilemonOutcome.movedOldPathDeleted,
            { st2 with paths := st2.paths.filter (fun p => p != srcDir) })
         else (FilemonOutcome.movedPathUntouched, st2)
       else (FilemonOutcome.movedPathAlreadyDeleted, st2)) := by
    unfold filemonFileMoved
    rw [if_neg hne, hf]
  rw [hbody]
  simp only []
  set st2 : IndexState := { addPath st destDir with
    files := (addPath st destDir).files.map (fun (g : FileRec) =>
      if g.id = f.id then { g with dirname := destDir, name := destName } else g) } with hst2
  have hseg : st2.segments = st.segments := by
    rw [hst2]
    show (addPath st destDir).segments = st.segments
    exact addPath_segments st destDir
  have hfiles : st2.files = st.files.map (fun (g : FileRec) =>
      if g.id = f.id then { g with dirname := destDir, name := destName } else g) := by
    rw [hst2]
    show (addPath st destDir).files.map _ = _
    rw [addPath_files]
  have hpaths : st2.paths = (addPath st destDir).paths := rfl
  by_cases hcon : st2.paths.contains srcDir = true
  · rw [if_pos hcon]
    by_cases hlen : (st2.files.filter (fun g => g.dirname == srcDir)).length = 0
    · rw [if_pos hlen]
      refine ⟨hseg, hfiles, ?_, ?_⟩
      · intro _ hmem
        have := (List.mem_filter.mp hmem).2
        simp at this
      · intro hany
        rcases List.any_eq_true.mp hany with ⟨g, hg, hgd⟩
        have hmem : g ∈ st2.files.filter (fun g => g.dirname == srcDir) :=
          List.mem_filter.mpr ⟨hg, hgd⟩
        rw [List.length_eq_zero.mp hlen] at hmem
        exact absurd hmem (List.not_mem_nil g)
    · rw [if_neg hlen]
      refine ⟨hseg, hfiles, ?_, ?_⟩
      · intro hany
        rcases List.exists_mem_of_length_pos (Nat.pos_of_ne_zero hlen) with ⟨x, hx⟩
        have hx2 := List.mem_filter.mp hx
        have hx3 : st2.files.any (fun g => g.dirname == srcDir) = true :=
          List.any_eq_true.mpr ⟨x, hx2.1, hx2.2⟩
        rw [hany] at hx3
        exact absurd hx3 (by simp)
      · intro _
        rw [hpaths, mem_addPath_paths]
  · rw [if_neg hcon]
    have hnm : srcDir ∉ st2.paths := by
      intro hmem
      exact hcon (List.elem_iff.mpr hmem)
    refine ⟨hseg, hfiles, fun _ => hnm, ?_⟩
    intro _
    rw [hpaths, mem_addPath_paths]

theorem C8_moved_updates_path_only_witness :
    (filemonFileMoved stB "/a" "f" "/b" "g").2.segments = stB.segments :=
  (C8_moved_updates_path_only stB "/a" "f" "/b" "g" fileB (by simp)
    (by simp [findFile, stB, fileB, fileA])).1

theorem eventChecks_isResolved (p : EventParams) :
    (eventChecks p).isResolved = true ↔
      startEndBad p = false ∧ (p.nodata = 204 ∨ p.nodata = 404) ∧
      (p.format = "xml" ∨ p.format = "text") := by
  unfold eventChecks
  split_ifs with hb hn hf
  · refine iff_of_false (by simp [EventQueryResult.isResolved]) ?_
    rintro ⟨hb2, -, -⟩
    rw [hb] at hb2
    cases hb2
  · refine iff_of_false (by simp [EventQueryResult.isResolved]) ?_
    rintro ⟨-, hnn, -⟩
    simp only [Bool.not_eq_true', Bool.or_eq_false_iff, beq_eq_false_iff_ne] at hn
    rcases hnn with h | h
    · exact hn.1 h
    · exact hn.2 h
  · refine iff_of_false (by simp [EventQueryResult.isResolved]) ?_
    rintro ⟨-, -, hff⟩
    simp only [Bool.not_eq_true', Bool.or_eq_false_iff, beq_eq_false_iff_ne] at hf
    rcases hff with h | h
    · exact hf.1 h
    · exact hf.2 h
  · refine iff_of_true (by simp [EventQueryResult.isResolved]) ?_
    refine ⟨by simpa using hb, ?_, ?_⟩
    · by_contra hc
      push_neg at hc
      exact hn (by simp [hc.1, hc.2])
    · by_contra hc
      push_neg at hc
      exact hf (by simp [hc.1, hc.2])

/-- C6 counterexample: the fully empty request — starttime and endtime
missing — is not rejected by the event query view: every parameter takes
its default and the request reaches the resolver, contradicting the
claim that missing times are rejected before the Query Resolver is
invoked. -/
theorem C6_counterexample :
    eventQuery emptyRawRequest = EventQueryResult.resolved defaultEventParams ∧
    defaultEventParams.starttime = none ∧ defaultEventParams.endtime = none := by
  refine ⟨?_, rfl, rfl⟩
  rfl

/-- C6 as corrected: the event query view rejects a request before the
resolver exactly when some supplied parameter fails to parse, or
starttime and endtime are both supplied with nonzero timestamps and
endtime is not strictly after starttime, or a supplied nodata is outside
204 and 404, or a supplied format is outside xml and text.  Requests
with starttime or endtime missing pass validation and reach the
resolver. -/
theorem C6_time_optional_validation (r : RawRequest) :
    (eventQuery r).isResolved = true ↔ acceptableEventRequest r := by
  by_cases h1 : r.starttime = some none
  · have he : eventQuery r = EventQueryResult.rejected "Error parsing starttime" := by
      unfold eventQuery parse_query_parameters
      rw [if_pos h1]
    rw [he]
    exact iff_of_false (by simp [EventQueryResult.isResolved]) (fun hacc => hacc.1 h1)
  by_cases h2 : r.endtime = some none
  · have he : eventQuery r = EventQueryResult.rejected "Error parsing endtime" := by
      unfold eventQuery parse_query_parameters
      rw [if_neg h1, if_pos h2]
    rw [he]
    exact iff_of_false (by simp [EventQueryResult.isResolved]) (fun hacc => hacc.2.1 h2)
  by_cases h3 : r.minlatitude = some none
  · have he : eventQuery r = EventQueryResult.rejected "Error parsing minlatitude" := by
      unfold eventQuery parse_query_parameters
      rw [if_neg h1, if_neg h2, if_pos h3]
    rw [he]
    exact iff_of_false (by simp [EventQueryResult.isResolved]) (fun hacc => hacc.2.2.1 h3)
  by_cases h4 : r.maxlatitude = some none
  · have he : eventQuery r = EventQueryResult.rejected "Error parsing maxlatitude" := by
      unfold eventQuery parse_query_parameters
      rw [if_neg h1, if_neg h2, if_neg h3, if_pos h4]
    rw [he]
    exact iff_of_false (by simp [EventQueryResult.isResolved]) (fun hacc => hacc.2.2.2.1 h4)
  by_cases h5 : r.minlongitude = some none
  · have he : eventQuery r = EventQueryResult.rejected "Error parsing minlongitude" := by
      unfold eventQuery parse_query_parameters
      rw [if_neg h1, if_neg h2, if_neg h3, if_neg h4, if_pos h5]
    rw [he]
    exact iff_of_false (by simp [EventQueryResult.isResolved]) (fun hacc => hacc.2.2.2.2.1 h5)
  by_cases h6 : r.maxlongitude = some none
  · have he : eventQuery r = EventQueryResult.rejected "Error parsing maxlongitude" := by
      unfold eventQuery parse_query_parameters
      rw [if_neg h1, if_neg h2, if_neg h3, if_neg h4, if_neg h5, if_pos h6]
    rw [he]
    exact iff_of_false (by simp [EventQueryResult.isResolved])
      (fun hacc => hacc.2.2.2.2.2.1 h6)
  by_cases h7 : r.mindepth = some none
  · have he : eventQuery r = EventQueryResult.rejected "Error parsing mindepth" := by
      unfold eventQuery parse_query_parameters
      rw [if_neg h1, if_neg h2, if_neg h3, if_neg h4, if_neg h5, if_neg h6, if_pos h7]
    rw [he]
    exact iff_of_false (by simp [EventQueryResult.isResolved])
      (fun hacc => hacc.2.2.2.2.2.2.1 h7)
  by_cases h8 : r.maxdepth = some none
  · have he : eventQuery r = EventQueryResult.rejected "Error parsing maxdepth" := by
      unfold eventQuery parse_query_parameters
      rw [if_neg h1, if_neg h2, if_neg h3, if_neg h4, if_neg h5, if_neg h6, if_neg h7,
        if_pos h8]
    rw [he]
    exact iff_of_false (by simp [EventQueryResult.isResolved])
      (fun hacc => hacc.2.2.2.2.2.2.2.1 h8)
  by_cases h9 : r.minmagnitude = some none
  · have he : eventQuery r = EventQueryResult.rejected "Error parsing minmagnitude" := by
      unfold eventQuery parse_query_parameters
      rw [if_neg h1, if_neg h2, if_neg h3, if_neg h4, if_neg h5, if_neg h6, if_neg h7,
        if_neg h8, if_pos h9]
    rw [he]
    exact iff_of_false (by simp [EventQueryResult.isResolved])
      (fun hacc => hacc.2.2.2.2.2.2.2.2.1 h9)
  by_cases h10 : r.maxmagnitude = some none
  · have he : eventQuery r = EventQueryResult.rejected "Error parsing maxmagnitude" := by
      unfold eventQuery parse_query_parameters
      rw [if_neg h1, if_neg h2, if_neg h3, if_neg h4, if_neg h5, if_neg h6, if_neg h7,
        if_neg h8, if_neg h9, if_pos h10]
    rw [he]
    exact iff_of_false (by simp [EventQueryResult.isResolved])
      (fun hacc => hacc.2.2.2.2.2.2.2.2.2.1 h10)
  by_cases h11 : r.nodata = some none
  · have he : eventQuery r = EventQueryResult.rejected "Error parsing nodata" := by
      unfold eventQuery parse_query_parameters
      rw [if_neg h1, if_neg h2, if_neg h3, if_neg h4, if_neg h5, if_neg h6, if_neg h7,
        if_neg h8, if_neg h9, if_neg h10, if_pos h11]
    rw [he]
    exact iff_of_false (by simp [EventQueryResult.isResolved])
      (fun hacc => hacc.2.2.2.2.2.2.2.2.2.2.1 h11)
  have hok : eventQuery r = eventChecks
      { starttime := joinOpt r.starttime, endtime := joinOpt r.endtime,
        minlatitude := joinOpt r.minlatitude, maxlatitude := joinOpt r.maxlatitude,
        minlongitude := joinOpt r.minlongitude, maxlongitude := joinOpt r.maxlongitude,
        mindepth := joinOpt r.mindepth, maxdepth := joinOpt r.maxdepth,
        minmagnitude := joinOpt r.minmagnitude, maxmagnitude := joinOpt r.maxmagnitude,
        orderby := r.orderby.getD "time", nodata := (joinOpt r.nodata).getD 204,
        format := r.format.getD "xml" } := by
    unfold eventQuery parse_query_parameters
    rw [if_neg h1, if_neg h2, if_neg h3, if_neg h4, if_neg h5, if_neg h6, if_neg h7,
      if_neg h8, if_neg h9, if_neg h10, if_neg h11]
  rw [hok, eventChecks_isResolved]
  constructor
  · rintro ⟨hb, hn, hf⟩
    refine ⟨h1, h2, h3, h4, h5, h6, h7, h8, h9, h10, h11, ?_, ?_, ?_⟩
    · intro s e hs he hs0 he0
      by_contra hlt
      have hle : e ≤ s := not_lt.mp hlt
      have hb2 := hb
      rw [hs, he] at hb2
      simp [startEndBad, joinOpt, hs0, he0, hle] at hb2
    · intro nn hnn
      rw [hnn] at hn
      simpa [joinOpt] using hn
    · intro fm hfm
      rw [hfm] at hf
      simpa using hf
  · rintro ⟨a1, a2, a3, a4, a5, a6, a7, a8, a9, a10, a11, atime, anodata, aformat⟩
    refine ⟨?_, ?_, ?_⟩
    · rcases hrs : r.starttime with _ | os
      · simp [startEndBad, joinOpt, hrs]
      · rcases os with _ | s
        · exact absurd hrs a1
        · rcases hre : r.endtime with _ | oe
          · simp [startEndBad, joinOpt, hrs, hre]
          · rcases oe with _ | e
            · exact absurd hre a2
            · by_cases hs0 : s = 0
              · simp [startEndBad, joinOpt, hrs, hre, hs0]
              · by_cases he0 : e = 0
                · simp [startEndBad, joinOpt, hrs, hre, he0]
                · have hlt := atime s e hrs hre hs0 he0
                  simp [startEndBad, joinOpt, hrs, hre, hs0, he0, not_le.mpr hlt]
    · rcases hrn : r.nodata with _ | onn
      · simp [joinOpt, hrn]
      · rcases onn with _ | nn
        · exact absurd hrn a11
        · rcases anodata nn hrn with h | h <;> simp [joinOpt, hrn, h]
    · rcases hrf : r.format with _ | fm
      · simp [hrf]
      · rcases aformat fm hrf with h | h <;> simp [hrf, h]

/-- C10: a deleted-file event for a path that is not indexed is handled
by catching the missing-row exception: the handler returns the
already-deleted outcome normally and leaves the store untouched, so file
deletion at the event interface is idempotent. -/
theorem C10_delete_missing_file (st : IndexState) (srcDir srcName : String)
    (h : findFile st srcDir srcName = none) :
    filemonFileDeleted st srcDir srcName = (FilemonOutcome.fileAlreadyDeleted, st) := by
  unfold filemonFileDeleted
  rw [h]

theorem C10_delete_missing_file_witness :
    filemonFileDeleted emptyIndex "/d" "f" = (FilemonOutcome.fileAlreadyDeleted, emptyIndex) :=
  C10_delete_missing_file emptyIndex "/d" "f" rfl

/-- C9: purging in index_path deletes exactly the Path rows whose name
has the given absolute path as a plain string prefix (likewise the File
rows by their directory), and the prefix test is the plain string one,
so sibling directories sharing the prefix are purged too: /data/foo is a
prefix of /data/foobar. -/
theorem C9_purge_startswith (st : IndexState) (path : String) :
    (∀ p, p ∈ (index_path st path true).paths ↔
       p ∈ st.paths ∧ path.data.isPrefixOf p.data = false) ∧
    (∀ f, f ∈ (index_path st path true).files ↔
       f ∈ st.files ∧ path.data.isPrefixOf f.dirname.data = false) ∧
    ("/data/foo".data.isPrefixOf "/data/foobar".data = true) := by
  refine ⟨?_, ?_, by decide⟩ <;>
    · intro x
      simp [index_path, purgePath, List.mem_filter]

theorem C9_purge_startswith_witness :
    ¬("/data/foobar" ∈ (index_path stD "/data/foo" true).paths) := by
  intro hm
  have h := ((C9_purge_startswith stD "/data/foo").1 "/data/foobar").1 hm
  have htrue : "/data/foo".data.isPrefixOf "/data/foobar".data = true := by decide
  rw [h.2] at htrue
  exact absurd htrue (by decide)

/-- C3: the single inclusion pattern star matches every stored field
value, and a query whose selector list for any one field is exactly the
one-element star list returns the same segment set as a query with no
selector for that field (which likewise matches everything), the other
fields being arbitrary. -/
theorem C3_star_selector (v : String) (st : IndexState) (w1 w2 : ℚ) (sel : Selectors) :
    fieldMatches v ["*"] = true ∧
    querySegments st w1 w2 { sel with network := ["*"] } =
      querySegments st w1 w2 { sel with network := [] } ∧
    querySegments st w1 w2 { sel with station := ["*"] } =
      querySegments st w1 w2 { sel with station := [] } ∧
    querySegments st w1 w2 { sel with location := ["*"] } =
      querySegments st w1 w2 { sel with location := [] } ∧
    querySegments st w1 w2 { sel with channel := ["*"] } =
      querySegments st w1 w2 { sel with channel := [] } := by
  refine ⟨fieldMatches_star v, ?_, ?_, ?_, ?_⟩ <;>
    · unfold querySegments
      refine List.filter_congr (fun s _ => ?_)
      simp [identityMatches, fieldMatches_star, fieldMatches_nil]

end Jane
